import Mathlib

/-!
Verification of the `StandardCheck.py` style checker.

Python strings are modelled as `List Char` (the checker only handles ASCII
identifiers and docstrings).  A Python expression that can raise is modelled
with an explicit failure value: `isValidFormat` returns `Option Bool`
(`none` = the `name[0]` access raised `IndexError`), and the docstring
checker returns the emitted diagnostics paired with a crash flag.
-/

/-- Python strings, modelled as lists of characters. -/
abbrev PyStr := List Char

/-- Convenience: the character list of a Lean string literal. -/
def pystr (s : String) : PyStr := s.data

/-- Python's `char.isupper()` restricted to ASCII: `'A' ≤ c ≤ 'Z'`. -/
def pyIsUpper (c : Char) : Bool := decide ('A' ≤ c ∧ c ≤ 'Z')

/-- The regex character class `[a-z0-9]`. -/
def isLowerDigit (c : Char) : Bool :=
  decide ('a' ≤ c ∧ c ≤ 'z') || decide ('0' ≤ c ∧ c ≤ '9')

/-- The regex character class `[A-Za-z0-9]`. -/
def isAlnumAscii (c : Char) : Bool := isLowerDigit c || pyIsUpper c

/-- The language of the regex body `[a-z0-9]+(?:[A-Z][a-z0-9]*)*` from
`isCamelCase` (line 83 of the source).  Since each `[A-Z]` opens a fresh
group and `[a-z0-9]*` may be empty, the regex accepts exactly the nonempty
strings whose first character is in `[a-z0-9]` and whose remaining
characters are alphanumeric ASCII. -/
def camelBody : PyStr → Bool
  | [] => false
  | c :: cs => isLowerDigit c && cs.all isAlnumAscii

/-- The language of the regex body `[A-Z][A-Za-z0-9]+(?:[A-Z][a-z0-9]*)*`
from `isPascalCase` (line 94 of the source): at least two characters, the
first in `[A-Z]`, the rest alphanumeric ASCII (the `+` forces a second
character). -/
def pascalBody : PyStr → Bool
  | c :: d :: cs => pyIsUpper c && (d :: cs).all isAlnumAscii
  | _ => false

/-- Python `re.match` against an `^...$`-anchored pattern: `$` also matches
just before a single trailing newline. -/
def reMatchDollar (body : PyStr → Bool) (s : PyStr) : Bool :=
  body s || (decide (s.getLast? = some '\n') && body s.dropLast)

/-- `CodeChecker.isCamelCase` (source line 83). -/
def isCamelCase (name : PyStr) : Bool := reMatchDollar camelBody name

/-- `CodeChecker.isPascalCase` (source line 94). -/
def isPascalCase (name : PyStr) : Bool := reMatchDollar pascalBody name

/-- Python `str.split(sep)` for a one-character separator, as used by
`name.split("_")` and `line.split(':')` in the source. -/
def splitChar (sep : Char) : PyStr → List PyStr
  | [] => [[]]
  | c :: cs =>
    if c = sep then [] :: splitChar sep cs
    else
      match splitChar sep cs with
      | [] => [[c]]
      | s :: ss => (c :: s) :: ss

/-- Python truthiness of the optional `type` argument of `isValidFormat`
(`None` and the empty string are falsy). -/
def pyTruthy : Option PyStr → Bool
  | none => false
  | some s => !s.isEmpty

/-- `CodeChecker.isValidFormat` (source lines 48-72).  `itemsToIgnore` is the
checker's ignore set.  The result is `none` when the Python code would raise
`IndexError` at the `name[0]` access (line 62). -/
def isValidFormat (itemsToIgnore : List PyStr) (name : PyStr) (type : Option PyStr) :
    Option Bool :=
  if name ∈ itemsToIgnore then some true
  else if name.all pyIsUpper then some true
  else
    match name.head? with
    | none => none
    | some c0 =>
      if c0 = '_' then some true
      else if '_' ∈ name then
        some ((splitChar '_' name).all fun side => side.all pyIsUpper)
      else if pyTruthy type then some (isPascalCase name)
      else some (isCamelCase name)

/-- Python's whitespace set for `str.strip()`. -/
def pyIsSpace (c : Char) : Bool :=
  decide (c = ' ' ∨ c = '\t' ∨ c = '\n' ∨ c = '\r' ∨ c = '\x0b' ∨ c = '\x0c')

/-- Python `str.strip()`: drop whitespace from both ends. -/
def pyStrip (s : PyStr) : PyStr :=
  ((s.dropWhile pyIsSpace).reverse.dropWhile pyIsSpace).reverse

/-- ASCII lowercasing of one character, as used by case-insensitive
matching of the section-header keywords. -/
def asciiLower (c : Char) : Char :=
  match c with
  | 'A' => 'a' | 'B' => 'b' | 'C' => 'c' | 'D' => 'd' | 'E' => 'e' | 'F' => 'f'
  | 'G' => 'g' | 'H' => 'h' | 'I' => 'i' | 'J' => 'j' | 'K' => 'k' | 'L' => 'l'
  | 'M' => 'm' | 'N' => 'n' | 'O' => 'o' | 'P' => 'p' | 'Q' => 'q' | 'R' => 'r'
  | 'S' => 's' | 'T' => 't' | 'U' => 'u' | 'V' => 'v' | 'W' => 'w' | 'X' => 'x'
  | 'Y' => 'y' | 'Z' => 'z'
  | c => c

/-- Case-insensitive (ASCII) test that `pat` is a prefix of `s`. -/
def ciStartsWith : PyStr → PyStr → Bool
  | [], _ => true
  | _ :: _, [] => false
  | p :: ps, c :: cs => decide (asciiLower p = asciiLower c) && ciStartsWith ps cs

/-- The literal section-header keywords of the `re.split` pattern
`Args:|Returns:|Notes:|Yields:|Raises:|Updates:` (source line 160). -/
def headerKeywords : List PyStr :=
  [pystr "Args:", pystr "Returns:", pystr "Notes:", pystr "Yields:",
   pystr "Raises:", pystr "Updates:"]

/-- If one of the header keywords matches case-insensitively at the start of
`s`, the length of that keyword.  At any position at most one keyword can
match, since no keyword is a case-insensitive prefix of another. -/
def headerAt (s : PyStr) : Option Nat :=
  headerKeywords.findSome? fun h => if ciStartsWith h s then some h.length else none

/-- `re.split(r'Args:|Returns:|Notes:|Yields:|Raises:|Updates:', …, re.IGNORECASE)`:
scan left to right; at a match emit the accumulated segment and swallow the
keyword (`k` counts keyword characters still to swallow, during which no new
match is attempted, mirroring that `re.split` resumes after the match). -/
def splitHeadersAux : PyStr → Nat → PyStr → List PyStr → List PyStr
  | [], _, acc, out => out ++ [acc.reverse]
  | _ :: cs, Nat.succ k, acc, out => splitHeadersAux cs k acc out
  | c :: cs, 0, acc, out =>
    match headerAt (c :: cs) with
    | some n => splitHeadersAux cs (n - 1) [] (out ++ [acc.reverse])
    | none => splitHeadersAux cs 0 (c :: acc) out

/-- All segments of the header split (element 0 is the pre-header text). -/
def splitHeaders (s : PyStr) : List PyStr := splitHeadersAux s 0 [] []

/-- Python `docstring.find('\n\n')` (source line 161), as an `Option`. -/
def findDoubleNewline : PyStr → Option Nat
  | '\n' :: '\n' :: _ => some 0
  | _ :: cs => (findDoubleNewline cs).map (· + 1)
  | [] => none

/-- The diagnostic messages the checker can emit, one constructor per
f-string of the source, carrying the interpolated names. -/
inductive Msg where
  | missingDocstring (name : PyStr)
  | descriptionMissing (name : PyStr)
  | noEndingPeriod (name : PyStr)
  | argCapital (name : PyStr)
  | argPeriodEnd (name : PyStr)
  | funcNotCamel (name : PyStr)
  | funcDunder (name : PyStr)
  | paramNoTypeHint (func : PyStr) (param : PyStr)
  | paramNotCamel (func : PyStr) (param : PyStr)
  | mutableDefault (name : PyStr)
  | missingReturnType (name : PyStr)
  | classNotPascal (name : PyStr)
  | varDunder (name : PyStr)
  | varNotCamel (name : PyStr)
deriving DecidableEq

/-- One reported diagnostic: `f"{self.filename}:{node.lineno}: {message}"`. -/
structure Diag where
  file : PyStr
  lineno : Nat
  msg : Msg
deriving DecidableEq

/-- `line.split(':')[1].strip()` (source line 177), the text the checker
validates as the argument definition of a stripped Args-block line. -/
def argDefinitionOf (line : PyStr) : PyStr :=
  pyStrip ((splitChar ':' line).getD 1 [])

/-- The loop over `colonSplit[1:]` (source lines 186-192).  The crash flag is
true when `additionalInfo.strip()[0]` would raise `IndexError`, i.e. when a
nonempty clause strips to the empty string. -/
def processClauses (file : PyStr) (lineno : Nat) (name : PyStr) :
    List PyStr → List Diag × Bool
  | [] => ([], false)
  | info :: rest =>
    if info = [] then processClauses file lineno name rest
    else
      match pyStrip info with
      | [] => ([], true)
      | c :: cs =>
        let d1 := if pyIsUpper c then [Diag.mk file lineno (Msg.argCapital name)] else []
        let d2 := if (c :: cs).getLast? = some '.' then
                    [Diag.mk file lineno (Msg.argPeriodEnd name)] else []
        let r := processClauses file lineno name rest
        (d1 ++ d2 ++ r.1, r.2)

/-- The per-line body of the Args-block loop (source lines 175-192).  The
guard `len(colonSplit) > 1` followed by the loop over `colonSplit[1:]` is
rendered as an unconditional loop over `(splitChar ';' …).drop 1`, which is
empty exactly when the guard fails. -/
def processArgLine (file : PyStr) (lineno : Nat) (name : PyStr) (line : PyStr) :
    List Diag × Bool :=
  if pyStrip line ≠ [] ∧ ':' ∈ line then
    match argDefinitionOf (pyStrip line) with
    | [] => ([], false)
    | c :: cs =>
      let d1 := if pyIsUpper c then [Diag.mk file lineno (Msg.argCapital name)] else []
      let d2 := if (c :: cs).getLast? = some '.' then
                  [Diag.mk file lineno (Msg.argPeriodEnd name)] else []
      let r := processClauses file lineno name ((splitChar ';' (c :: cs)).drop 1)
      (d1 ++ d2 ++ r.1, r.2)
  else ([], false)

/-- The `for line in lines` loop (source line 174): a raised exception aborts
the remaining lines but the already-appended diagnostics are kept. -/
def processArgLines (file : PyStr) (lineno : Nat) (name : PyStr) :
    List PyStr → List Diag × Bool
  | [] => ([], false)
  | line :: rest =>
    let r := processArgLine file lineno name line
    if r.2 then (r.1, true)
    else
      let r2 := processArgLines file lineno name rest
      (r.1 ++ r2.1, r2.2)

/-- `CodeChecker.checkDocstring` (source lines 151-194), given the already
extracted docstring (`ast.get_docstring` is external).  Returns the emitted
diagnostics and a flag telling whether the Python code would raise. -/
def checkDocstring (file : PyStr) (lineno : Nat) (name : PyStr) (doc : Option PyStr) :
    List Diag × Bool :=
  match doc with
  | none => ([Diag.mk file lineno (Msg.missingDocstring name)], false)
  | some docstring =>
    if docstring = [] then ([Diag.mk file lineno (Msg.missingDocstring name)], false)
    else
      let sections := (splitHeaders docstring).drop 1
      let firstLine :=
        match findDoubleNewline docstring with
        | none => pyStrip docstring
        | some i => pyStrip (docstring.take i)
      let sd1 := if firstLine = [] ∨ ':' ∈ firstLine then
                   [Diag.mk file lineno (Msg.descriptionMissing name)] else []
      let sd2 := if ':' ∉ firstLine ∧ firstLine.getLast? ≠ some '.' then
                   [Diag.mk file lineno (Msg.noEndingPeriod name)] else []
      match sections with
      | [] => (sd1 ++ sd2, false)
      | sec :: _ =>
        let r := processArgLines file lineno name (splitChar '\n' sec)
        (sd1 ++ sd2 ++ r.1, r.2)

/-- Modelled from the spec (section 4.3, steps 1-2): the summary as the spec
describes it — the pre-header text, truncated at the first blank line when
one exists.  Used only to compare the spec's description with the code. -/
def summarySpec (doc : PyStr) : PyStr :=
  let pre := (splitHeaders doc).headD doc
  match findDoubleNewline pre with
  | none => pyStrip pre
  | some i => pyStrip (pre.take i)

/-- Everything after the first colon of a line. -/
def afterFirstColon : PyStr → PyStr
  | [] => []
  | ':' :: cs => cs
  | _ :: cs => afterFirstColon cs

/-- Modelled from the spec (section 4.3, step 4): "split once on the colon;
the text after the colon is the definition: trim it."  Used only to compare
the spec's description with the code. -/
def defAfterFirstColonSpec (line : PyStr) : PyStr := pyStrip (afterFirstColon line)

/-- The fixed allow-list `special_methods` (source lines 18-30). -/
def specialMethods : List PyStr :=
  [pystr "__init__", pystr "__del__", pystr "__repr__", pystr "__str__",
   pystr "__bytes__", pystr "__format__", pystr "__lt__",
   pystr "__le__", pystr "__eq__", pystr "__ne__", pystr "__gt__", pystr "__ge__",
   pystr "__hash__", pystr "__bool__", pystr "__call__",
   pystr "__len__", pystr "__getitem__", pystr "__setitem__", pystr "__delitem__",
   pystr "__iter__", pystr "__next__",
   pystr "__reversed__", pystr "__contains__", pystr "__add__", pystr "__sub__",
   pystr "__mul__", pystr "__matmul__",
   pystr "__truediv__", pystr "__floordiv__", pystr "__mod__", pystr "__divmod__",
   pystr "__pow__", pystr "__lshift__",
   pystr "__rshift__", pystr "__and__", pystr "__xor__", pystr "__or__",
   pystr "__iadd__", pystr "__isub__", pystr "__imul__",
   pystr "__imatmul__", pystr "__itruediv__", pystr "__ifloordiv__", pystr "__imod__",
   pystr "__ipow__", pystr "__ilshift__",
   pystr "__irshift__", pystr "__iand__", pystr "__ixor__", pystr "__ior__",
   pystr "__neg__", pystr "__pos__", pystr "__abs__",
   pystr "__invert__", pystr "__complex__", pystr "__int__", pystr "__float__",
   pystr "__round__", pystr "__index__",
   pystr "__enter__", pystr "__exit__", pystr "__await__", pystr "__aiter__",
   pystr "__anext__", pystr "__aenter__", pystr "__aexit__",
   pystr "__version__"]

/-- Python `'__' in name` (substring test). -/
def hasDunder : PyStr → Bool
  | '_' :: '_' :: _ => true
  | _ :: cs => hasDunder cs
  | [] => false

/-- Python `'**' in name` (substring test). -/
def hasDoubleStar : PyStr → Bool
  | '*' :: '*' :: _ => true
  | _ :: cs => hasDoubleStar cs
  | [] => false

/-- A formal parameter: `arg.arg` plus whether `arg.annotation` is present. -/
structure FArg where
  name : PyStr
  annotated : Bool
deriving DecidableEq

/-- The shape of a default value, as far as the mutable-default check looks:
`isinstance(default, ast.Dict)`, `ast.List` or `ast.Set` (source line 131). -/
inductive DefaultExpr where
  | dictLit
  | listLit
  | setLit
  | otherExpr
deriving DecidableEq

/-- The expression context of a `Name` node (`ast.Store`/`ast.Param` trigger
the checks, everything else does not). -/
inductive Ctx where
  | load
  | store
  | del
  | param
deriving DecidableEq

/-- The syntax-tree fragment the visitor distinguishes: function definitions,
class definitions, `Name` nodes, and every other node (visited generically,
children only).  The docstring is carried as a field because
`ast.get_docstring` belongs to the external parser. -/
inductive Node where
  | functionDef (lineno : Nat) (name : PyStr) (args : List FArg)
      (defaults : List DefaultExpr) (returns : Bool) (docstring : Option PyStr)
      (body : List Node)
  | classDef (lineno : Nat) (name : PyStr) (docstring : Option PyStr) (body : List Node)
  | nameNode (lineno : Nat) (id : PyStr) (ctx : Ctx)
  | other (children : List Node)

/-- The body of the `for arg in node.args.args` loop (source lines 123-128):
the annotation check, then the format check, whose `name[0]` access could in
principle raise (flag true). -/
def argCheck (file : PyStr) (ign : List PyStr) (lineno : Nat) (fname : PyStr)
    (a : FArg) : List Diag × Bool :=
  let d1 := if a.annotated = false ∧ a.name ≠ pystr "self" ∧ a.name ≠ pystr "cls"
               ∧ '*' ∉ a.name ∧ hasDoubleStar a.name = false then
              [Diag.mk file lineno (Msg.paramNoTypeHint fname a.name)] else []
  match isValidFormat ign a.name none with
  | none => (d1, true)
  | some ok =>
    (d1 ++ (if ok then [] else [Diag.mk file lineno (Msg.paramNotCamel fname a.name)]),
     false)

/-- The `for arg in node.args.args` loop over all parameters. -/
def argsChecks (file : PyStr) (ign : List PyStr) (lineno : Nat) (fname : PyStr) :
    List FArg → List Diag × Bool
  | [] => ([], false)
  | a :: rest =>
    let r := argCheck file ign lineno fname a
    if r.2 then (r.1, true)
    else
      let r2 := argsChecks file ign lineno fname rest
      (r.1 ++ r2.1, r2.2)

/-- The `for default in node.args.defaults` loop (source lines 130-132): one
mutable-default diagnostic per dict, list or set literal. -/
def defaultsChecks (file : PyStr) (lineno : Nat) (name : PyStr)
    (defaults : List DefaultExpr) : List Diag :=
  defaults.filterMap fun d =>
    match d with
    | DefaultExpr.dictLit => some (Diag.mk file lineno (Msg.mutableDefault name))
    | DefaultExpr.listLit => some (Diag.mk file lineno (Msg.mutableDefault name))
    | DefaultExpr.setLit => some (Diag.mk file lineno (Msg.mutableDefault name))
    | DefaultExpr.otherExpr => none

/-- The checks `visit_FunctionDef` performs on the node itself, before
`generic_visit` (source lines 108-136): docstring, camel case, dunder use,
parameters, mutable defaults, return annotation — in that order, with a
raise aborting the rest. -/
def functionDefChecks (file : PyStr) (ign : List PyStr) (lineno : Nat) (name : PyStr)
    (args : List FArg) (defaults : List DefaultExpr) (returns : Bool)
    (doc : Option PyStr) : List Diag × Bool :=
  let r0 := checkDocstring file lineno name doc
  if r0.2 then (r0.1, true)
  else
    match isValidFormat ign name none with
    | none => (r0.1, true)
    | some camelOk =>
      let d1 := if camelOk then [] else [Diag.mk file lineno (Msg.funcNotCamel name)]
      let d2 := if hasDunder name = true ∧ name ∉ specialMethods then
                  [Diag.mk file lineno (Msg.funcDunder name)] else []
      let ra := argsChecks file ign lineno name args
      if ra.2 then (r0.1 ++ d1 ++ d2 ++ ra.1, true)
      else
        let dd := defaultsChecks file lineno name defaults
        let dr := if returns then [] else [Diag.mk file lineno (Msg.missingReturnType name)]
        (r0.1 ++ d1 ++ d2 ++ ra.1 ++ dd ++ dr, false)

/-- The checks `visit_ClassDef` performs on the node itself (source lines
140-148): Pascal-case check, then docstring check. -/
def classDefChecks (file : PyStr) (ign : List PyStr) (lineno : Nat) (name : PyStr)
    (doc : Option PyStr) : List Diag × Bool :=
  match isValidFormat ign name (some (pystr "class")) with
  | none => ([], true)
  | some ok =>
    let d1 := if ok then [] else [Diag.mk file lineno (Msg.classNotPascal name)]
    let r := checkDocstring file lineno name doc
    (d1 ++ r.1, r.2)

/-- The checks `visit_Name` performs (source lines 196-207). -/
def nameChecks (file : PyStr) (ign : List PyStr) (lineno : Nat) (id : PyStr)
    (ctx : Ctx) : List Diag × Bool :=
  if ctx = Ctx.store ∨ ctx = Ctx.param then
    let d1 := if hasDunder id = true ∧ id ∉ specialMethods then
                [Diag.mk file lineno (Msg.varDunder id)] else []
    match isValidFormat ign id none with
    | none => (d1, true)
    | some ok =>
      (d1 ++ (if ok then [] else [Diag.mk file lineno (Msg.varNotCamel id)]), false)
  else ([], false)

/-- The mutable state of a `CodeChecker` instance: the accumulated `errors`
list plus the run-constant `filename` and ignore set. -/
structure Checker where
  errors : List Diag
  filename : PyStr
  itemsToIgnore : List PyStr

mutual

/-- The `visit` dispatch of the `ast.NodeVisitor`: per-node checks append to
`errors`, then the children are visited in order; the Bool is true when the
Python code would raise, aborting the rest of the traversal. -/
def visitNode (c : Checker) : Node → Checker × Bool
  | Node.functionDef lineno name args defaults returns doc body =>
    let r := functionDefChecks c.filename c.itemsToIgnore lineno name args defaults
               returns doc
    let c1 : Checker := Checker.mk (c.errors ++ r.1) c.filename c.itemsToIgnore
    if r.2 then (c1, true) else visitNodes c1 body
  | Node.classDef lineno name doc body =>
    let r := classDefChecks c.filename c.itemsToIgnore lineno name doc
    let c1 : Checker := Checker.mk (c.errors ++ r.1) c.filename c.itemsToIgnore
    if r.2 then (c1, true) else visitNodes c1 body
  | Node.nameNode lineno id ctx =>
    let r := nameChecks c.filename c.itemsToIgnore lineno id ctx
    (Checker.mk (c.errors ++ r.1) c.filename c.itemsToIgnore, r.2)
  | Node.other children => visitNodes c children

/-- `generic_visit`: visit the children in order; a raise aborts the rest. -/
def visitNodes (c : Checker) : List Node → Checker × Bool
  | [] => (c, false)
  | n :: ns =>
    let r := visitNode c n
    if r.2 then (r.1, true) else visitNodes r.1 ns

end

/-- `checkFile` (source lines 209-222): the parse is external; a fresh
checker with an empty `errors` list is constructed, the tree visited, and
the error list returned (with the crash flag of the run). -/
def checkFileModel (file : PyStr) (ign : List PyStr) (tree : List Node) :
    List Diag × Bool :=
  let r := visitNodes (Checker.mk [] file ign) tree
  (r.1.errors, r.2)

/-- Does a diagnostic carry the "missing a docstring" message? -/
def isMissingDocstringDiag (d : Diag) : Bool :=
  match d.msg with
  | Msg.missingDocstring _ => true
  | _ => false

/-- Does a diagnostic carry one of the docstring-structure messages (the
summary rules or the Args-block rules)? -/
def isDocstringStructureDiag (d : Diag) : Bool :=
  match d.msg with
  | Msg.descriptionMissing _ => true
  | Msg.noEndingPeriod _ => true
  | Msg.argCapital _ => true
  | Msg.argPeriodEnd _ => true
  | _ => false

/-- `isValidFormat` never returns `none`: the guarded `name[0]` access is
reached only on nonempty names (shared helper lemma). -/
theorem isValidFormat_isSome (ign : List PyStr) (name : PyStr) (type : Option PyStr) :
    (isValidFormat ign name type).isSome := by
  match name with
  | [] =>
    unfold isValidFormat
    split
    · rfl
    · simp
  | c :: cs =>
    unfold isValidFormat
    split
    · rfl
    · split
      · rfl
      · show (if c = '_' then some true else _).isSome = true
        split
        · rfl
        · split
          · simp
          · split <;> rfl

/-- C1: the shape tests of the naming classifier (empty ignore set):
`isValidFormat "myVariable"` with the function kind (`type=None`) is true,
`"MyVariable"` false; `"MyClass"` with `type='class'` is true, `"myClass"`
false. -/
theorem isValidFormat_shape_tests :
    isValidFormat [] (pystr "myVariable") none = some true
    ∧ isValidFormat [] (pystr "MyVariable") none = some false
    ∧ isValidFormat [] (pystr "MyClass") (some (pystr "class")) = some true
    ∧ isValidFormat [] (pystr "myClass") (some (pystr "class")) = some false := by
  refine ⟨?_, ?_, ?_, ?_⟩ <;> decide

/-- C2: membership in the ignore set, an all-uppercase name, or a leading
underscore each force `isValidFormat` to return true, for every name and
every kind. -/
theorem isValidFormat_exemptions (ign : List PyStr) (name : PyStr) (type : Option PyStr)
    (h : name ∈ ign ∨ name.all pyIsUpper = true ∨ name.head? = some '_') :
    isValidFormat ign name type = some true := by
  unfold isValidFormat
  rcases h with hmem | hup | hhead
  · simp [hmem]
  · simp [hup]
  · split
    · rfl
    · split
      · rfl
      · rw [hhead]
        simp

/-- C2 witness: a name beginning with an underscore is accepted. -/
theorem isValidFormat_exemptions_witness :
    isValidFormat [] (pystr "_private") none = some true :=
  isValidFormat_exemptions [] (pystr "_private") none (Or.inr (Or.inr (by decide)))

/-- C3: for a name that contains an underscore, does not start with one, is
not ignored and is not entirely uppercase, `isValidFormat` returns true
exactly when every character of every `_`-separated segment is uppercase. -/
theorem isValidFormat_snake_upper (ign : List PyStr) (name : PyStr) (type : Option PyStr)
    (hus : '_' ∈ name) (hhead : name.head? ≠ some '_')
    (hmem : name ∉ ign) (hup : ¬ name.all pyIsUpper = true) :
    (isValidFormat ign name type = some true
      ↔ ∀ side ∈ splitChar '_' name, ∀ c ∈ side, pyIsUpper c = true) := by
  have hne : name ≠ [] := by
    intro h; subst h; simp at hus
  unfold isValidFormat
  rw [if_neg hmem, if_neg hup]
  match hn : name, hne with
  | c :: cs, _ =>
    subst hn
    simp only [List.head?]
    have hc0 : ¬ c = '_' := by
      intro h; apply hhead; simp [List.head?, h]
    rw [if_neg hc0, if_pos hus]
    simp [List.all_eq_true]

/-- C3 witness: `AB_CD` (all-upper segments) is accepted while `snake_case`
is rejected, via the theorem applied at those inputs. -/
theorem isValidFormat_snake_upper_witness :
    isValidFormat [] (pystr "AB_CD") none = some true
    ∧ isValidFormat [] (pystr "snake_case") none ≠ some true :=
  ⟨(isValidFormat_snake_upper [] (pystr "AB_CD") none (by decide) (by decide)
      (by decide) (by decide)).mpr (by decide),
   fun h => by
    have := (isValidFormat_snake_upper [] (pystr "snake_case") none (by decide) (by decide)
      (by decide) (by decide)).mp h
    exact absurd (this (pystr "snake") (by decide) 's' (by decide)) (by decide)⟩

/-- C10: `isValidFormat` is total: the empty name is accepted through the
vacuous all-uppercase rule, and for every name the guarded `name[0]` access
never faults. -/
theorem isValidFormat_total (ign : List PyStr) (type : Option PyStr) :
    isValidFormat ign [] type = some true
    ∧ ∀ name : PyStr, (isValidFormat ign name type).isSome = true := by
  constructor
  · unfold isValidFormat
    split
    · rfl
    · rfl
  · intro name
    exact isValidFormat_isSome ign name type

/-- Helper: a successful `findSome?` comes from some list element. -/
theorem list_findSome?_exists {α β : Type} {l : List α} {f : α → Option β} {b : β}
    (h : l.findSome? f = some b) : ∃ a ∈ l, f a = some b := by
  induction l with
  | nil => simp [List.findSome?] at h
  | cons x xs ih =>
    rw [List.findSome?] at h
    cases hf : f x with
    | some y =>
      rw [hf] at h
      cases h
      exact ⟨x, List.mem_cons_self x xs, hf⟩
    | none =>
      rw [hf] at h
      obtain ⟨a, ha, hfa⟩ := ih h
      exact ⟨a, List.mem_cons_of_mem _ ha, hfa⟩

/-- Helper: only `':'` lowercases to `':'`. -/
theorem asciiLower_eq_colon {c : Char} (h : asciiLower c = ':') : c = ':' := by
  unfold asciiLower at h
  split at h <;> first | exact h | exact absurd h (by decide)

/-- Helper: a case-insensitive prefix containing a colon forces a colon in
the scanned string. -/
theorem ciStartsWith_colon {p s : PyStr} (h : ciStartsWith p s = true) (hc : ':' ∈ p) :
    ':' ∈ s := by
  induction p generalizing s with
  | nil => simp at hc
  | cons q qs ih =>
    match s with
    | [] => simp [ciStartsWith] at h
    | c :: cs =>
      rw [ciStartsWith, Bool.and_eq_true, decide_eq_true_iff] at h
      obtain ⟨h1, h2⟩ := h
      rcases List.mem_cons.mp hc with rfl | hqs
      · have hlc : asciiLower c = ':' := by rw [← h1]; rfl
        exact List.mem_cons.mpr (Or.inl (asciiLower_eq_colon hlc).symm)
      · exact List.mem_cons_of_mem _ (ih h2 hqs)

/-- Helper: a header keyword match implies the string contains a colon. -/
theorem headerAt_colon {s : PyStr} {n : Nat} (h : headerAt s = some n) : ':' ∈ s := by
  obtain ⟨k, hk, hf⟩ := list_findSome?_exists h
  by_cases hci : ciStartsWith k s = true
  · refine ciStartsWith_colon hci ?_
    fin_cases hk <;> decide
  · simp [hci] at hf

/-- Helper: the header split produces a second segment only if a keyword
matched somewhere, hence only if the text contains a colon. -/
theorem splitHeadersAux_colon (s : PyStr) :
    ∀ (k : Nat) (acc : PyStr) (out : List PyStr),
      2 ≤ (splitHeadersAux s k acc out).length → out ≠ [] ∨ ':' ∈ s := by
  induction s with
  | nil =>
    intro k acc out h
    left
    intro hout
    subst hout
    simp [splitHeadersAux] at h
  | cons c cs ih =>
    intro k acc out h
    match k with
    | Nat.succ k' =>
      simp only [splitHeadersAux] at h
      rcases ih k' acc out h with ho | hc
      · exact Or.inl ho
      · exact Or.inr (List.mem_cons_of_mem _ hc)
    | 0 =>
      simp only [splitHeadersAux] at h
      cases hh : headerAt (c :: cs) with
      | some n => exact Or.inr (headerAt_colon hh)
      | none =>
        rw [hh] at h
        rcases ih 0 (c :: acc) out h with ho | hc
        · exact Or.inl ho
        · exact Or.inr (List.mem_cons_of_mem _ hc)

/-- Helper: a docstring whose header split has a section contains a colon. -/
theorem splitHeaders_colon {doc : PyStr} (h : (splitHeaders doc).drop 1 ≠ []) :
    ':' ∈ doc := by
  have hlen : 2 ≤ (splitHeaders doc).length := by
    by_contra hlt
    exact h (List.drop_eq_nil_of_le (by omega))
  rcases splitHeadersAux_colon doc 0 [] [] hlen with ho | hc
  · exact absurd rfl ho
  · exact hc

/-- Helper: `dropWhile` keeps every element not satisfying the predicate. -/
theorem mem_dropWhile_of_not {p : Char → Bool} {c : Char} {s : PyStr}
    (hs : c ∈ s) (hp : p c = false) : c ∈ s.dropWhile p := by
  induction s with
  | nil => simp at hs
  | cons x xs ih =>
    rw [List.dropWhile]
    cases hx : p x with
    | true =>
      rcases List.mem_cons.mp hs with rfl | h
      · rw [hx] at hp; cases hp
      · simpa using ih h
    | false => simpa using hs

/-- Helper: stripping keeps every non-whitespace character. -/
theorem mem_pyStrip {c : Char} {s : PyStr} (hs : c ∈ s) (hp : pyIsSpace c = false) :
    c ∈ pyStrip s := by
  unfold pyStrip
  rw [List.mem_reverse]
  apply mem_dropWhile_of_not _ hp
  rw [List.mem_reverse]
  exact mem_dropWhile_of_not hs hp

/-- C4 counterexample: on `"Does stuff.\nArgs:\n    x: y"` (a header but no
blank line) the code emits the "description is missing" diagnostic, although
the spec's summary — the whole pre-header text — is `"Does stuff."`, which is
nonempty, colon-free and period-terminated and so would pass every summary
check.  The validated summary is therefore not the pre-header text. -/
theorem checkDocstring_summary_not_preheader :
    Diag.mk (pystr "f.py") 1 (Msg.descriptionMissing (pystr "f"))
      ∈ (checkDocstring (pystr "f.py") 1 (pystr "f")
          (some (pystr "Does stuff.\nArgs:\n    x: y"))).1
    ∧ summarySpec (pystr "Does stuff.\nArgs:\n    x: y") = pystr "Does stuff."
    ∧ ':' ∉ pystr "Does stuff."
    ∧ (pystr "Does stuff.").getLast? = some '.' := by
  refine ⟨?_, ?_, ?_, ?_⟩ <;> decide

/-- C4 (amended): the summary `checkDocstring` validates is the whole
docstring truncated at the first blank line and stripped, with the header
keywords not excluded; in particular every nonempty docstring that contains
a section header but no blank line keeps the header's colon in its summary
and is always diagnosed as "docstring description is missing". -/
theorem checkDocstring_header_no_blank_line (file : PyStr) (lineno : Nat)
    (name doc : PyStr) (hne : doc ≠ [])
    (hsec : (splitHeaders doc).drop 1 ≠ [])
    (hnn : findDoubleNewline doc = none) :
    Diag.mk file lineno (Msg.descriptionMissing name)
      ∈ (checkDocstring file lineno name (some doc)).1 := by
  have hcolon : ':' ∈ pyStrip doc := mem_pyStrip (splitHeaders_colon hsec) (by decide)
  simp only [checkDocstring, hnn, if_neg hne]
  rw [if_pos (Or.inr hcolon)]
  cases hs : (splitHeaders doc).drop 1 with
  | nil => exact absurd hs hsec
  | cons sec rest => simp

/-- C4 witness: the amended statement applied to the concrete docstring
`"Does stuff.\nArgs:\n    x: y"`. -/
theorem checkDocstring_header_no_blank_line_witness :
    Diag.mk (pystr "f.py") 1 (Msg.descriptionMissing (pystr "f"))
      ∈ (checkDocstring (pystr "f.py") 1 (pystr "f")
          (some (pystr "Does stuff.\nArgs:\n    x: y"))).1 :=
  checkDocstring_header_no_blank_line (pystr "f.py") 1 (pystr "f")
    (pystr "Does stuff.\nArgs:\n    x: y") (by decide) (by decide) (by decide)

/-- C5 counterexample: on the Args line `"x: a: B."` the code validates only
`"a"` (the text between the first and second colon) and emits nothing, while
the text after the first colon, `"a: B."`, ends with a period and would
trigger the ending-period diagnostic if the claim were right. -/
theorem checkDocstring_argdef_not_after_first_colon :
    checkDocstring (pystr "f.py") 1 (pystr "f")
        (some (pystr "Sum.\n\nArgs:\n    x: a: B.")) = ([], false)
    ∧ defAfterFirstColonSpec (pystr "x: a: B.") = pystr "a: B."
    ∧ (pystr "a: B.").getLast? = some '.' := by
  refine ⟨?_, ?_, ?_⟩ <;> decide

/-- Helper: splitting at the separator itself. -/
theorem splitChar_cons_sep (sep : Char) (ys : PyStr) :
    splitChar sep (sep :: ys) = [] :: splitChar sep ys := by
  rw [splitChar]
  simp

/-- Helper: splitting a string that starts with a separator-free prefix. -/
theorem splitChar_append_sep {sep : Char} {xs : PyStr} (ys : PyStr) (hx : sep ∉ xs) :
    splitChar sep (xs ++ sep :: ys) = xs :: splitChar sep ys := by
  induction xs with
  | nil => simpa using splitChar_cons_sep sep ys
  | cons x xs ih =>
    have hxs : sep ∉ xs := fun h => hx (List.mem_cons_of_mem _ h)
    have hxne : ¬ x = sep := fun h => hx (by simp [h])
    rw [List.cons_append, splitChar, if_neg hxne, ih hxs]

/-- C5 (amended): the argument definition `checkDocstring` validates is the
trimmed text strictly between the first and the second colon of the line;
any later colons and the text after them are dropped. -/
theorem argDefinitionOf_between_colons (pre mid post : PyStr)
    (hpre : ':' ∉ pre) (hmid : ':' ∉ mid) :
    argDefinitionOf (pre ++ ':' :: (mid ++ ':' :: post)) = pyStrip mid := by
  unfold argDefinitionOf
  rw [splitChar_append_sep _ hpre, splitChar_append_sep _ hmid]
  rfl

/-- C5 witness: the amended statement applied to the line `"x: a: B."`. -/
theorem argDefinitionOf_between_colons_witness :
    argDefinitionOf (pystr "x" ++ ':' :: (pystr " a" ++ ':' :: pystr " B."))
      = pyStrip (pystr " a") :=
  argDefinitionOf_between_colons (pystr "x") (pystr " a") (pystr " B.")
    (by decide) (by decide)

/-- C6: the code is not total — on the docstring
`"Sum.\n\nArgs:\n    x: a; ;"` the clause between the two semicolons strips
to the empty string and `additionalInfo.strip()[0]` raises `IndexError`
(the crash flag of the embedding is true). -/
theorem checkDocstring_raises_on_blank_clause :
    (checkDocstring (pystr "f.py") 1 (pystr "f")
        (some (pystr "Sum.\n\nArgs:\n    x: a; ;"))).2 = true := by
  decide

/-- Helper: a single parameter check never raises and only emits the two
parameter messages. -/
theorem argCheck_spec (file : PyStr) (ign : List PyStr) (lineno : Nat) (fname : PyStr)
    (a : FArg) :
    (argCheck file ign lineno fname a).2 = false
    ∧ ∀ d ∈ (argCheck file ign lineno fname a).1,
        (∃ p, d.msg = Msg.paramNoTypeHint fname p)
          ∨ (∃ p, d.msg = Msg.paramNotCamel fname p) := by
  obtain ⟨b, hb⟩ := Option.isSome_iff_exists.mp (isValidFormat_isSome ign a.name none)
  simp only [argCheck, hb]
  refine ⟨by trivial, ?_⟩
  intro d hd
  simp only [List.mem_append] at hd
  rcases hd with hd | hd
  · left
    refine ⟨a.name, ?_⟩
    split at hd <;> simp_all
  · right
    refine ⟨a.name, ?_⟩
    split at hd <;> simp_all

/-- Helper: the parameter loop never raises and only emits the two
parameter messages. -/
theorem argsChecks_spec (file : PyStr) (ign : List PyStr) (lineno : Nat) (fname : PyStr)
    (args : List FArg) :
    (argsChecks file ign lineno fname args).2 = false
    ∧ ∀ d ∈ (argsChecks file ign lineno fname args).1,
        (∃ p, d.msg = Msg.paramNoTypeHint fname p)
          ∨ (∃ p, d.msg = Msg.paramNotCamel fname p) := by
  induction args with
  | nil => exact ⟨rfl, by intro d hd; simp [argsChecks] at hd⟩
  | cons a rest ih =>
    obtain ⟨hflag, hmsgs⟩ := argCheck_spec file ign lineno fname a
    rw [argsChecks]
    split
    case isTrue h => rw [hflag] at h; cases h
    case isFalse h =>
      refine ⟨ih.1, ?_⟩
      intro d hd
      simp only [List.mem_append] at hd
      rcases hd with hd | hd
      · exact hmsgs d hd
      · exact ih.2 d hd

/-- Helper: parameter messages are neither docstring messages nor the
function-dunder message. -/
theorem param_msgs_flags {d : Diag} {fname : PyStr}
    (h : (∃ p, d.msg = Msg.paramNoTypeHint fname p)
          ∨ (∃ p, d.msg = Msg.paramNotCamel fname p)) :
    isMissingDocstringDiag d = false ∧ isDocstringStructureDiag d = false
      ∧ ∀ n : PyStr, d.msg ≠ Msg.funcDunder n := by
  obtain ⟨f, l, m⟩ := d
  rcases h with ⟨p, hp⟩ | ⟨p, hp⟩ <;>
    simp_all [isMissingDocstringDiag, isDocstringStructureDiag]

/-- Helper: the defaults loop only emits the mutable-default message. -/
theorem defaultsChecks_msgs (file : PyStr) (lineno : Nat) (name : PyStr)
    (defaults : List DefaultExpr) :
    ∀ d ∈ defaultsChecks file lineno name defaults,
      d.msg = Msg.mutableDefault name := by
  intro d hd
  obtain ⟨a, _, ha⟩ := List.mem_filterMap.mp hd
  cases a
  case dictLit => cases ha; rfl
  case listLit => cases ha; rfl
  case setLit => cases ha; rfl
  case otherExpr => cases ha

/-- Helper: the clause loop only emits the two Args-block messages. -/
theorem processClauses_msgs (file : PyStr) (lineno : Nat) (name : PyStr) :
    ∀ cl, ∀ d ∈ (processClauses file lineno name cl).1,
      isDocstringStructureDiag d = true := by
  intro cl
  induction cl with
  | nil => intro d hd; simp [processClauses] at hd
  | cons info rest ih =>
    intro d hd
    rw [processClauses] at hd
    split at hd
    · exact ih d hd
    · revert hd
      cases hps : pyStrip info with
      | nil => intro hd; simp at hd
      | cons c cs =>
        intro hd
        simp only [List.mem_append] at hd
        rcases hd with (hd | hd) | hd
        · split at hd <;> simp_all [isDocstringStructureDiag]
        · split at hd <;> simp_all [isDocstringStructureDiag]
        · exact ih d hd

/-- Helper: one Args-block line only emits the two Args-block messages. -/
theorem processArgLine_msgs (file : PyStr) (lineno : Nat) (name : PyStr) (line : PyStr) :
    ∀ d ∈ (processArgLine file lineno name line).1,
      isDocstringStructureDiag d = true := by
  intro d hd
  rw [processArgLine] at hd
  split at hd
  · split at hd
    · simp at hd
    · simp only [List.mem_append] at hd
      rcases hd with (hd | hd) | hd
      · split at hd <;> simp_all [isDocstringStructureDiag]
      · split at hd <;> simp_all [isDocstringStructureDiag]
      · exact processClauses_msgs file lineno name _ d hd
  · simp at hd

/-- Helper: the Args-block loop only emits the two Args-block messages. -/
theorem processArgLines_msgs (file : PyStr) (lineno : Nat) (name : PyStr) :
    ∀ ls, ∀ d ∈ (processArgLines file lineno name ls).1,
      isDocstringStructureDiag d = true := by
  intro ls
  induction ls with
  | nil => intro d hd; simp [processArgLines] at hd
  | cons line rest ih =>
    intro d hd
    rw [processArgLines] at hd
    split at hd
    · exact processArgLine_msgs file lineno name line d hd
    · simp only [List.mem_append] at hd
      rcases hd with hd | hd
      · exact processArgLine_msgs file lineno name line d hd
      · exact ih d hd

/-- Helper: every diagnostic `checkDocstring` emits is either the
missing-docstring message or a docstring-structure message. -/
theorem checkDocstring_msgs (file : PyStr) (lineno : Nat) (name : PyStr)
    (doc : Option PyStr) :
    ∀ d ∈ (checkDocstring file lineno name doc).1,
      isMissingDocstringDiag d = true ∨ isDocstringStructureDiag d = true := by
  intro d hd
  match doc with
  | none =>
    simp [checkDocstring] at hd
    subst hd
    left
    rfl
  | some docstring =>
    rw [checkDocstring] at hd
    split at hd
    · simp at hd
      subst hd
      left
      rfl
    · revert hd
      cases hs : (splitHeaders docstring).drop 1 with
      | nil =>
        intro hd
        simp only [List.mem_append] at hd
        rcases hd with hd | hd
        · right; split at hd <;> simp_all [isDocstringStructureDiag]
        · right; split at hd <;> simp_all [isDocstringStructureDiag]
      | cons sec rest =>
        intro hd
        simp only [List.mem_append] at hd
        rcases hd with (hd | hd) | hd
        · right; split at hd <;> simp_all [isDocstringStructureDiag]
        · right; split at hd <;> simp_all [isDocstringStructureDiag]
        · right
          exact processArgLines_msgs file lineno name (splitChar '\n' sec) d hd

/-- Helper: docstring messages are never the function-dunder message. -/
theorem docstring_msgs_ne_funcDunder {d : Diag} {n : PyStr}
    (h : isMissingDocstringDiag d = true ∨ isDocstringStructureDiag d = true) :
    d.msg ≠ Msg.funcDunder n := by
  obtain ⟨f, l, m⟩ := d
  cases m <;> simp_all [isMissingDocstringDiag, isDocstringStructureDiag]

/-- C7: for a function definition with no docstring, the per-node checks of
`visit_FunctionDef` emit exactly one "missing a docstring" diagnostic, no
docstring-structure diagnostic, and do not raise. -/
theorem functionDef_no_docstring (file : PyStr) (ign : List PyStr) (lineno : Nat)
    (name : PyStr) (args : List FArg) (defaults : List DefaultExpr) (returns : Bool) :
    ((functionDefChecks file ign lineno name args defaults returns none).1.countP
        isMissingDocstringDiag = 1)
    ∧ (∀ d ∈ (functionDefChecks file ign lineno name args defaults returns none).1,
        isDocstringStructureDiag d = false)
    ∧ (functionDefChecks file ign lineno name args defaults returns none).2 = false := by
  obtain ⟨b, hb⟩ := Option.isSome_iff_exists.mp (isValidFormat_isSome ign name none)
  obtain ⟨haf, ham⟩ := argsChecks_spec file ign lineno name args
  have hcd : checkDocstring file lineno name none
      = ([Diag.mk file lineno (Msg.missingDocstring name)], false) := rfl
  have hra : List.countP isMissingDocstringDiag (argsChecks file ign lineno name args).1
      = 0 := by
    refine List.countP_eq_zero.mpr ?_
    intro d hd
    have h1 := (param_msgs_flags (ham d hd)).1
    simp [h1]
  have hdd : List.countP isMissingDocstringDiag (defaultsChecks file lineno name defaults)
      = 0 := by
    refine List.countP_eq_zero.mpr ?_
    intro d hd
    have hmsg := defaultsChecks_msgs file lineno name defaults d hd
    obtain ⟨f0, l0, m0⟩ := d
    simp only at hmsg
    subst hmsg
    simp [isMissingDocstringDiag]
  refine ⟨?_, ?_, ?_⟩
  · simp only [functionDefChecks, hcd, hb, haf]
    simp only [Bool.false_eq_true, if_false, List.countP_append]
    rw [hra, hdd]
    split <;> split <;> split <;>
      simp [List.countP_cons, List.countP_nil, isMissingDocstringDiag]
  · simp only [functionDefChecks, hcd, hb, haf, Bool.false_eq_true, if_false]
    intro d hd
    simp only [List.mem_append] at hd
    rcases hd with ((((hd | hd) | hd) | hd) | hd) | hd
    · simp at hd; subst hd; rfl
    · split at hd <;> simp_all [isDocstringStructureDiag]
    · split at hd <;> simp_all [isDocstringStructureDiag]
    · exact (param_msgs_flags (ham d hd)).2.1
    · have hmsg := defaultsChecks_msgs file lineno name defaults d hd
      obtain ⟨f0, l0, m0⟩ := d
      simp only at hmsg
      subst hmsg
      rfl
    · split at hd <;> simp_all [isDocstringStructureDiag]
  · simp only [functionDefChecks, hcd, hb, haf, Bool.false_eq_true, if_false]

/-- C8 counterexample: a function named `do__something` whose docstring
check raises (the C6 bug) never reaches the dunder check, so the claimed
"always yields" fails: the dunder name is outside the allow-list and
contains `__`, yet no dunder diagnostic is emitted. -/
theorem functionDef_dunder_counterexample :
    hasDunder (pystr "do__something") = true
    ∧ (pystr "do__something") ∉ specialMethods
    ∧ Diag.mk (pystr "f.py") 1 (Msg.funcDunder (pystr "do__something"))
        ∉ (functionDefChecks (pystr "f.py") [] 1 (pystr "do__something") [] [] true
            (some (pystr "Sum.\n\nArgs:\n    x: a; ;"))).1 := by
  refine ⟨?_, ?_, ?_⟩ <;> decide

/-- C8 (amended): a function definition whose name is in the allow-list
never yields the dunder diagnostic; and one whose name contains `__` outside
the allow-list always yields it, provided the docstring check completes
without raising. -/
theorem functionDef_dunder_rule (file : PyStr) (ign : List PyStr) (lineno : Nat)
    (name : PyStr) (args : List FArg) (defaults : List DefaultExpr) (returns : Bool)
    (doc : Option PyStr) :
    (name ∈ specialMethods →
      Diag.mk file lineno (Msg.funcDunder name)
        ∉ (functionDefChecks file ign lineno name args defaults returns doc).1)
    ∧ ((checkDocstring file lineno name doc).2 = false → hasDunder name = true →
        name ∉ specialMethods →
      Diag.mk file lineno (Msg.funcDunder name)
        ∈ (functionDefChecks file ign lineno name args defaults returns doc).1) := by
  obtain ⟨b, hb⟩ := Option.isSome_iff_exists.mp (isValidFormat_isSome ign name none)
  obtain ⟨haf, ham⟩ := argsChecks_spec file ign lineno name args
  constructor
  · intro hsm hmem
    rw [functionDefChecks] at hmem
    split at hmem
    · exact docstring_msgs_ne_funcDunder
        (checkDocstring_msgs file lineno name doc _ hmem) rfl
    · rw [hb] at hmem
      simp only [haf, Bool.false_eq_true, if_false] at hmem
      simp only [List.mem_append] at hmem
      rcases hmem with ((((hd | hd) | hd) | hd) | hd) | hd
      · exact docstring_msgs_ne_funcDunder
          (checkDocstring_msgs file lineno name doc _ hd) rfl
      · split at hd <;> simp_all
      · split at hd
        case isTrue h => exact h.2 hsm
        case isFalse h => simp at hd
      · rcases ham _ hd with ⟨p, hp⟩ | ⟨p, hp⟩ <;> simp at hp
      · have hmsg := defaultsChecks_msgs file lineno name defaults _ hd
        simp at hmsg
      · split at hd <;> simp_all
  · intro hcr hdun hsm
    rw [functionDefChecks]
    simp only [hcr, Bool.false_eq_true, if_false, hb]
    have hd2 : (if hasDunder name = true ∧ name ∉ specialMethods then
        [Diag.mk file lineno (Msg.funcDunder name)] else ([] : List Diag))
        = [Diag.mk file lineno (Msg.funcDunder name)] := if_pos ⟨hdun, hsm⟩
    split <;> simp [hd2, List.mem_append]

/-- C8 witness: `__init__` never gets the dunder diagnostic and
`do__something` (with an absent docstring, so the docstring check returns
normally) always does — the amended theorem applied at those two inputs. -/
theorem functionDef_dunder_rule_witness :
    Diag.mk (pystr "f.py") 1 (Msg.funcDunder (pystr "__init__"))
      ∉ (functionDefChecks (pystr "f.py") [] 1 (pystr "__init__") [] [] true none).1
    ∧ Diag.mk (pystr "f.py") 1 (Msg.funcDunder (pystr "do__something"))
      ∈ (functionDefChecks (pystr "f.py") [] 1 (pystr "do__something") [] [] true none).1 :=
  ⟨(functionDef_dunder_rule (pystr "f.py") [] 1 (pystr "__init__") [] [] true none).1
      (by decide),
   (functionDef_dunder_rule (pystr "f.py") [] 1 (pystr "do__something") [] [] true none).2
      (by decide) (by decide) (by decide)⟩

mutual

/-- Helper: visiting a node from any checker state appends exactly the
diagnostics of the same visit started from an empty error list, preserves
the filename and ignore set, and crashes identically. -/
theorem visitNode_append (t : Node) (c : Checker) :
    visitNode c t
      = (Checker.mk
          (c.errors ++ (visitNode (Checker.mk [] c.filename c.itemsToIgnore) t).1.errors)
          c.filename c.itemsToIgnore,
         (visitNode (Checker.mk [] c.filename c.itemsToIgnore) t).2) := by
  obtain ⟨e, f, i⟩ := c
  match t with
  | Node.functionDef lineno name args defaults returns doc body =>
    simp only [visitNode]
    cases hr : (functionDefChecks f i lineno name args defaults returns doc).2 with
    | true => simp
    | false =>
      simp only [Bool.false_eq_true, if_false]
      rw [visitNodes_append body
            (Checker.mk (e ++ (functionDefChecks f i lineno name args defaults returns doc).1) f i),
          visitNodes_append body
            (Checker.mk ([] ++ (functionDefChecks f i lineno name args defaults returns doc).1) f i)]
      simp
  | Node.classDef lineno name doc body =>
    simp only [visitNode]
    cases hr : (classDefChecks f i lineno name doc).2 with
    | true => simp
    | false =>
      simp only [Bool.false_eq_true, if_false]
      rw [visitNodes_append body
            (Checker.mk (e ++ (classDefChecks f i lineno name doc).1) f i),
          visitNodes_append body
            (Checker.mk ([] ++ (classDefChecks f i lineno name doc).1) f i)]
      simp
  | Node.nameNode lineno id ctx =>
    simp [visitNode]
  | Node.other children =>
    simp only [visitNode]
    exact visitNodes_append children (Checker.mk e f i)

/-- Helper: the same statement for a list of sibling nodes. -/
theorem visitNodes_append (ts : List Node) (c : Checker) :
    visitNodes c ts
      = (Checker.mk
          (c.errors ++ (visitNodes (Checker.mk [] c.filename c.itemsToIgnore) ts).1.errors)
          c.filename c.itemsToIgnore,
         (visitNodes (Checker.mk [] c.filename c.itemsToIgnore) ts).2) := by
  obtain ⟨e, f, i⟩ := c
  match ts with
  | [] => simp [visitNodes]
  | n :: ns =>
    simp only [visitNodes]
    rw [visitNode_append n (Checker.mk e f i), visitNode_append n (Checker.mk [] f i)]
    cases hn : (visitNode (Checker.mk [] f i) n).2 with
    | true => simp
    | false =>
      simp only [Bool.false_eq_true, if_false]
      rw [visitNodes_append ns
            (Checker.mk (e ++ ([] ++ (visitNode (Checker.mk [] f i) n).1.errors)) f i)]
      dsimp only
      rw [visitNodes_append ns
            (Checker.mk ([] ++ (visitNode (Checker.mk [] f i) n).1.errors) f i)]
      dsimp only
      simp

end

/-- C9: the checker is deterministic — whatever diagnostics are already
accumulated, a visit of a tree emits exactly the diagnostic list of
`checkFileModel` (the run from a fresh checker, as `checkFile` constructs
one per run) and the same crash flag; hence two runs over the same tree,
filename and ignore configuration produce identical diagnostic lists in
identical order. -/
theorem checker_deterministic (tree : List Node) (file : PyStr) (ign : List PyStr)
    (e1 : List Diag) :
    ((visitNodes (Checker.mk e1 file ign) tree).1.errors).drop e1.length
        = (checkFileModel file ign tree).1
    ∧ (visitNodes (Checker.mk e1 file ign) tree).2 = (checkFileModel file ign tree).2 := by
  have h := visitNodes_append tree (Checker.mk e1 file ign)
  rw [checkFileModel]
  constructor
  · rw [h]
    dsimp only
    exact List.drop_left e1 _
  · rw [h]

/-- C7 witness: the theorem applied to a concrete docstring-less function,
with the membership hypothesis of the structure conjunct discharged at the
single diagnostic actually emitted. -/
theorem functionDef_no_docstring_witness :
    ((functionDefChecks (pystr "f.py") [] 1 (pystr "f") [] [] true none).1.countP
        isMissingDocstringDiag = 1)
    ∧ isDocstringStructureDiag
        (Diag.mk (pystr "f.py") 1 (Msg.missingDocstring (pystr "f"))) = false :=
  ⟨(functionDef_no_docstring (pystr "f.py") [] 1 (pystr "f") [] [] true).1,
   (functionDef_no_docstring (pystr "f.py") [] 1 (pystr "f") [] [] true).2.1 _ (by decide)⟩
